import Mathlib

set_option autoImplicit false

/-!
Verification of the AxonFlow SDK request-execution pipeline and interceptor
framework. The repository sources provide the type definitions
(`src/axonflow/types.py`) together with the unit tests; the implementation
modules `axonflow/client.py`, `axonflow/exceptions.py` and
`axonflow/interceptors/` are not part of the sources, so the operational
behaviour below is modelled from the specification (sections 4.1 to 4.6 and 7)
and checked against the observable behaviour fixed by the tests.

Numeric conventions: HTTP status codes and attempt counters are `Nat`;
second-valued delays, TTLs and instants are exact rationals `ℚ` (the Python
sources use floats; every quantity handled by the claims is exactly
representable).
-/

/-- Response body fields of the Agent that drive classification, mirroring
`ClientResponse` in `src/axonflow/types.py`: `blocked` defaults to `False`,
`block_reason` and the top-level `policy` field are optional, and
`policies_evaluated` comes from the nested `policy_info`. -/
structure ResponseBody where
  success : Bool := true
  blocked : Bool := false
  block_reason : Option String := none
  policy : Option String := none
  policies_evaluated : List String := []
  payload : String := ""
  deriving Repr, DecidableEq

/-- One completed HTTP exchange: status code plus the parsed body. -/
structure HttpResponse where
  status : Nat
  body : ResponseBody
  deriving Repr, DecidableEq

/-- Outcome of one transport attempt: either a transport-level failure with no
response received, or a completed response. -/
inductive TransportResult where
  | failure (msg : String)
  | response (r : HttpResponse)
  deriving Repr, DecidableEq

/-- Error taxonomy of specification section 7 as raised by the client:
connection errors, authentication errors (401), policy violations carrying the
policy name and block reason, and generic HTTP errors carrying the status. -/
inductive AxonErr where
  | connectionError (msg : String)
  | authenticationError
  | policyViolation (policy : Option String) (block_reason : Option String)
  | httpError (status : Nat)
  deriving Repr, DecidableEq

/-- True when the body carries `blocked = true` or a non-empty `block_reason`. -/
def isBlockedBody (b : ResponseBody) : Bool :=
  b.blocked || (match b.block_reason with
    | some s => s != ""
    | none => false)

/-- Policy name attached to a policy-violation error: the explicit top-level
`policy` field when present, otherwise the first evaluated policy name. -/
def policyOf (b : ResponseBody) : Option String :=
  match b.policy with
  | some p => some p
  | none => b.policies_evaluated.head?

/-- Modelled from the spec: the Error Classifier of section 4.3 (module
`axonflow/client.py`, absent from the sources). Rules in priority order:
transport failure, then 401, then 403 or a blocked body on a non-error
status, then any other 4xx/5xx, otherwise success. -/
def classify (t : TransportResult) : Except AxonErr ResponseBody :=
  match t with
  | .failure msg => .error (.connectionError msg)
  | .response r =>
    if r.status = 401 then .error .authenticationError
    else if r.status = 403 ∨ (r.status < 400 ∧ isBlockedBody r.body = true) then
      .error (.policyViolation (policyOf r.body) r.body.block_reason)
    else if 400 ≤ r.status then .error (.httpError r.status)
    else .ok r.body

/-- Mirrors `RetryConfig` in `src/axonflow/types.py`; field constraints there:
`max_attempts` in `[1, 10]`, `initial_delay > 0`, `max_delay > 0`,
`exponential_base > 1`. -/
structure RetryConfig where
  enabled : Bool := true
  max_attempts : Nat := 3
  initial_delay : ℚ := 1
  max_delay : ℚ := 30
  exponential_base : ℚ := 2

/-- Mirrors `CacheConfig` in `src/axonflow/types.py`; field constraints there:
`ttl > 0`, `max_size > 0`. -/
structure CacheConfig where
  enabled : Bool := true
  ttl : ℚ := 60
  max_size : Nat := 1000

/-- Modelled from the spec, section 4.1: the backoff delay slept before attempt
`k` (for `k ≥ 2`) equals `min(max_delay, initial_delay * exponential_base ^ (k - 2))`. -/
def delayBefore (cfg : RetryConfig) (k : Nat) : ℚ :=
  min cfg.max_delay (cfg.initial_delay * cfg.exponential_base ^ (k - 2))

/-- Modelled from the spec: the Retry Engine loop of section 4.1 (module
`axonflow/client.py`, absent from the sources). `attempt` is the current
1-based attempt number and `remaining` the number of attempts still allowed,
the current one included. An `ok` result returns immediately; a transient
error with at least one further attempt allowed sleeps the backoff delay and
retries; otherwise the last observed error is returned tagged with the number
of attempts made. Also returns the attempt count and the list of delays
slept. -/
def retryAux {α ε : Type} (transient : ε → Bool) (delay : Nat → ℚ)
    (op : Nat → Except ε α) : Nat → Nat → List ℚ → Except (ε × Nat) α × Nat × List ℚ
  | attempt, 0, delays =>
    match op attempt with
    | .ok a => (.ok a, attempt, delays)
    | .error e => (.error (e, attempt), attempt, delays)
  | attempt, 1, delays =>
    match op attempt with
    | .ok a => (.ok a, attempt, delays)
    | .error e => (.error (e, attempt), attempt, delays)
  | attempt, r + 2, delays =>
    match op attempt with
    | .ok a => (.ok a, attempt, delays)
    | .error e =>
      if transient e then
        retryAux transient delay op (attempt + 1) (r + 1) (delays ++ [delay (attempt + 1)])
      else (.error (e, attempt), attempt, delays)

/-- Modelled from the spec: the Retry Engine entry point of section 4.1. When
retries are disabled the operation runs exactly once; there is never a delay
before the first attempt. -/
def run_retry {α ε : Type} (cfg : RetryConfig) (transient : ε → Bool)
    (op : Nat → Except ε α) : Except (ε × Nat) α × Nat × List ℚ :=
  retryAux transient (delayBefore cfg) op 1 (if cfg.enabled then cfg.max_attempts else 1) []

/-- Transient failure classes of sections 4.1 and 7: connection errors and 5xx
server errors are retried; authentication errors, policy violations and other
4xx client errors are fatal. -/
def isTransientErr : AxonErr → Bool
  | .connectionError _ => true
  | .httpError s => decide (500 ≤ s)
  | _ => false

/-- Modelled from the spec: the cache fingerprint of section 4.2, a stable
serialization of the logical request (operation name and the ordered
`(user_token, query, request_type)` argument values). -/
def fingerprint (user_token query request_type : String) : String :=
  "execute_query|" ++ user_token ++ "|" ++ query ++ "|" ++ request_type

/-- One cache entry: fingerprint key, cached value, insertion instant. -/
structure CacheEntry (α : Type) where
  key : String
  val : α
  time : ℚ

/-- Cache contents, ordered by insertion: the head is the oldest entry. -/
abbrev CacheState (α : Type) : Type := List (CacheEntry α)

/-- Modelled from the spec, section 4.2: a live (non-expired) entry for the
fingerprint, when one exists; an entry inserted at `t` is live at `now` while
`now - t < ttl`. -/
def lookupLive {α : Type} (cfg : CacheConfig) (now : ℚ) (k : String)
    (es : CacheState α) : Option α :=
  match es.find? (fun e => e.key == k && decide (now - e.time < cfg.ttl)) with
  | some e => some e.val
  | none => none

/-- Modelled from the spec, section 4.2: insertion with insertion-order
eviction. When inserting would exceed `max_size`, the single oldest-inserted
entry (the head) is evicted first; the new entry is appended at the tail. -/
def insertEntry {α : Type} (maxSize : Nat) (e : CacheEntry α) (es : CacheState α) :
    CacheState α :=
  (if maxSize ≤ es.length then es.tail else es) ++ [e]

/-- Modelled from the spec: the Response Cache contract `get_or_compute` of
section 4.2. With caching disabled, `compute` always runs and no entry is read
or stored. Otherwise a live entry is returned without invoking `compute`; on a
miss `compute` runs and a successful result is stored under the fingerprint
with a fresh timestamp (any stale entry for the same key is dropped first).
The third component counts `compute` invocations. -/
def get_or_compute {α ε : Type} (cfg : CacheConfig) (now : ℚ) (k : String)
    (compute : Unit → Except ε α) (es : CacheState α) :
    Except ε α × CacheState α × Nat :=
  if cfg.enabled = false then (compute (), es, 1)
  else
    match lookupLive cfg now k es with
    | some v => (.ok v, es, 0)
    | none =>
      match compute () with
      | .ok v => (.ok v, insertEntry cfg.max_size ⟨k, v, now⟩ (es.filter (fun e => e.key != k)), 1)
      | .error err => (.error err, es, 1)

/-- Modelled from the spec: `execute_query` of section 4.6, composing the
Response Cache around the Retry Engine around the Error Classifier.
`responses` gives the transport outcome of each 1-based HTTP attempt. Returns
the outcome (errors tagged with the attempt count), the new cache state, the
number of HTTP attempts performed, and the backoff delays slept. -/
def execute_query (retryCfg : RetryConfig) (cacheCfg : CacheConfig) (now : ℚ)
    (user_token query request_type : String) (responses : Nat → TransportResult)
    (es : CacheState ResponseBody) :
    Except (AxonErr × Nat) ResponseBody × CacheState ResponseBody × Nat × List ℚ :=
  let retried := run_retry retryCfg isTransientErr (fun k => classify (responses k))
  let goc := get_or_compute cacheCfg now (fingerprint user_token query request_type)
    (fun _ => retried.1) es
  (goc.1, goc.2.1, goc.2.2 * retried.2.1, if goc.2.2 = 1 then retried.2.2 else [])

/-- Modelled from the spec: the per-call interception protocol of section 4.5
(modules under `axonflow/interceptors/`, absent from the sources). The adapter
performs the governance check; when the check does not approve (a blocked body
classifies as a policy violation by section 4.3 rule 3), the typed error is
raised and the wrapped provider method is never invoked; when approved, the
real provider method runs with the original arguments unchanged and its result
is returned unmodified. The second component counts invocations of the real
provider method. -/
def interceptCall {α β : Type} (govResponse : TransportResult)
    (provider : α → β) (args : α) : Except AxonErr β × Nat :=
  match classify govResponse with
  | .error e => (.error e, 0)
  | .ok _ => (.ok (provider args), 1)

/-- Chat message in the OpenAI and Ollama call shape: a role and a plain
string content. -/
structure ChatMessage where
  role : String
  content : String
  deriving Repr, DecidableEq

/-- Content block in the Anthropic call shape: a text part, or a non-text part
(image, tool use, …) that prompt extraction ignores. -/
inductive ContentBlock where
  | text (s : String)
  | nonText (kind : String)
  deriving Repr, DecidableEq

/-- Message content in the Anthropic call shape: a raw string or a block list. -/
inductive MessageContent where
  | str (s : String)
  | blocks (bs : List ContentBlock)
  deriving Repr, DecidableEq

/-- Message in the Anthropic call shape. -/
structure AnthropicMessage where
  role : String
  content : MessageContent
  deriving Repr, DecidableEq

/-- Text of one content block; non-text blocks contribute nothing. -/
def blockText : ContentBlock → Option String
  | .text s => some s
  | .nonText _ => none

/-- Text of a message content value: the raw string, or the text blocks joined. -/
def contentText : MessageContent → String
  | .str s => s
  | .blocks bs => String.intercalate " " (bs.filterMap blockText)

/-- Modelled from the spec: `OpenAIInterceptor.extract_prompt` (section 4.5) —
joins the string contents of the `messages` argument; the empty string when
there are no messages. -/
def openai_extract_prompt (messages : List ChatMessage) : String :=
  String.intercalate "\n" (messages.map (fun m => m.content))

/-- Modelled from the spec: `AnthropicInterceptor.extract_prompt` (section
4.5) — joins the message texts, ignoring non-text content blocks; the empty
string when there are no messages. -/
def anthropic_extract_prompt (messages : List AnthropicMessage) : String :=
  String.intercalate "\n" (messages.map (fun m => contentText m.content))

/-- Prompt argument shape of the Gemini `generate_content` entry point: a raw
string or a list of strings; `none` models a call with no arguments. -/
inductive GeminiPrompt where
  | str (s : String)
  | parts (ss : List String)
  deriving Repr, DecidableEq

/-- Modelled from the spec: `GeminiInterceptor.extract_prompt` (section 4.5) —
the raw string, or the list parts joined; the empty string with no arguments. -/
def gemini_extract_prompt : Option GeminiPrompt → String
  | none => ""
  | some (.str s) => s
  | some (.parts ss) => String.intercalate " " ss

/-- Modelled from the spec: `OllamaInterceptor.extract_prompt` (section 4.5) —
joins chat message contents when `messages` is given, else the `prompt`
keyword argument, else the empty string. -/
def ollama_extract_prompt (messages : Option (List ChatMessage))
    (prompt : Option String) : String :=
  match messages with
  | some ms => String.intercalate "\n" (ms.map (fun m => m.content))
  | none =>
    match prompt with
    | some p => p
    | none => ""

/-- Decoded Bedrock request body (the JSON/bytes decoding of the provider wire
format is abstracted away, per the non-goals of section 1): Claude-style
`messages`, Titan-style `inputText`, or a raw `prompt` field. -/
structure BedrockBody where
  messages : Option (List AnthropicMessage) := none
  inputText : Option String := none
  prompt : Option String := none
  deriving Repr, DecidableEq

/-- Modelled from the spec: `BedrockInterceptor.extract_prompt` (section 4.5)
— extracts from `messages`, else `inputText`, else `prompt`; the empty string
when the `body` argument is missing or carries no extractable text. -/
def bedrock_extract_prompt (body : Option BedrockBody) : String :=
  match body with
  | none => ""
  | some b =>
    match b.messages with
    | some ms => String.intercalate "\n" (ms.map (fun m => contentText m.content))
    | none =>
      match b.inputText with
      | some t => t
      | none =>
        match b.prompt with
        | some p => p
        | none => ""

/-- Health endpoint outcome as seen by the client: HTTP status and the body's
`status` field, or a transport failure. -/
structure HealthResponse where
  status : Nat
  body_status : String
  deriving Repr, DecidableEq

/-- Modelled from the spec: `health_check` of section 4.6 against the
observable behaviour fixed by `tests/test_client.py::TestHealthCheck` — `True`
exactly when the health request completes on a success status with body
status `healthy`; `False` on any transport or HTTP failure or non-healthy
status; it never raises. -/
def health_check (r : Except String HealthResponse) : Bool :=
  match r with
  | .error _ => false
  | .ok h => if 200 ≤ h.status ∧ h.status < 300 then h.body_status == "healthy" else false

/-- One cache interaction as seen by the cache: a `get_or_compute` call at a
given instant with a given fingerprint and computed value (spec section 4.2). -/
def cache_step {α : Type} (cfg : CacheConfig) (es : CacheState α)
    (op : ℚ × String × α) : CacheState α :=
  (get_or_compute cfg op.1 op.2.1 (fun _ => (.ok op.2.2 : Except Unit α)) es).2.1

/-- Digit character of a decimal digit value. -/
def dchar (d : Nat) : Char := Char.ofNat (48 + d)

/-- Reads one decimal digit character. -/
def readDigit (c : Char) : Option Nat :=
  if c.isDigit then some (c.toNat - 48) else none

/-- Reads exactly two decimal digits as a number. -/
def read2 : List Char → Option (Nat × List Char)
  | a :: b :: rest => do
    let x ← readDigit a
    let y ← readDigit b
    pure (10 * x + y, rest)
  | _ => none

/-- Reads exactly four decimal digits as a number. -/
def read4 : List Char → Option (Nat × List Char)
  | a :: b :: c :: d :: rest => do
    let x ← readDigit a
    let y ← readDigit b
    let z ← readDigit c
    let w ← readDigit d
    pure (1000 * x + 100 * y + 10 * z + w, rest)
  | _ => none

/-- Consumes one expected separator character. -/
def expectChar (c : Char) : List Char → Option (List Char)
  | a :: rest => if a = c then some rest else none
  | _ => none

/-- Reads a maximal run of decimal digit characters. -/
def readDigits : List Char → List Nat × List Char
  | [] => ([], [])
  | c :: rest =>
    match readDigit c with
    | some d =>
      let p := readDigits rest
      (d :: p.1, p.2)
    | none => ([], c :: rest)

/-- Modelled from the spec, section 4.4: offset parsing. `Z` is treated as UTC
offset `+00:00`; a numeric offset is `±HH:MM` with hours below 24 and minutes
below 60. Returns the signed offset in minutes. -/
def parseOffset : List Char → Option Int
  | ['Z'] => some 0
  | [sgn, a, b, ':', c, d] =>
    if sgn = '+' ∨ sgn = '-' then do
      let ha ← readDigit a
      let hb ← readDigit b
      let ma ← readDigit c
      let mb ← readDigit d
      if 10 * ha + hb < 24 ∧ 10 * ma + mb < 60 then
        pure (if sgn = '+' then (((10 * ha + hb) * 60 + (10 * ma + mb) : Nat) : Int)
          else -(((10 * ha + hb) * 60 + (10 * ma + mb) : Nat) : Int))
      else none
    else none
  | _ => none

/-- Modelled from the spec, section 4.4: the sub-second value of the
fractional digit list — the first six digits, right-padded with zeros to six
(digits beyond six are truncated, not rounded; fewer than six are
zero-padded; an absent fraction gives zero). -/
def fracMicro (frac : List Nat) : Nat :=
  (frac.take 6 ++ List.replicate (6 - (frac.take 6).length) 0).foldl
    (fun a d => 10 * a + d) 0

/-- A parsed timestamp: calendar fields, microseconds, and the UTC offset in
signed minutes (`Z` parses as offset `0`). -/
structure ParsedDatetime where
  year : Nat
  month : Nat
  day : Nat
  hour : Nat
  minute : Nat
  second : Nat
  microsecond : Nat
  offsetMinutes : Int
  deriving Repr, DecidableEq

/-- Gregorian leap-year rule. -/
def isLeapYear (y : Nat) : Bool :=
  (y % 4 == 0 && y % 100 != 0) || y % 400 == 0

/-- Number of days in a month. -/
def daysInMonth (y m : Nat) : Nat :=
  if m = 2 then (if isLeapYear y then 29 else 28)
  else if m = 4 ∨ m = 6 ∨ m = 9 ∨ m = 11 then 30
  else 31

/-- Fractional-seconds component followed by the offset: an optional `.`-led
nonempty digit run, then the offset. Returns the fractional digits (empty when
the component is absent) and the signed offset minutes. -/
def parseFracOffset : List Char → Option (List Nat × Int)
  | '.' :: more =>
    let p := readDigits more
    if p.1 = [] then none
    else
      match parseOffset p.2 with
      | some off => some (p.1, off)
      | none => none
  | other =>
    match parseOffset other with
    | some off => some (([] : List Nat), off)
    | none => none

/-- Modelled from the spec: the Timestamp Normalizer `_parse_datetime` of
section 4.4 (module `axonflow/client.py`, absent from the sources; observable
behaviour fixed by `tests/test_client.py::TestParseDatetime`). Accepts
`YYYY-MM-DDTHH:MM:SS`, an optional fractional-seconds component with at least
one digit, and a trailing `Z` or numeric offset; field values must form a
valid calendar datetime, as enforced by the underlying datetime constructor. -/
def parseTimestamp (s : List Char) : Option ParsedDatetime := do
  let (year, r1) ← read4 s
  let r2 ← expectChar '-' r1
  let (month, r3) ← read2 r2
  let r4 ← expectChar '-' r3
  let (day, r5) ← read2 r4
  let r6 ← expectChar 'T' r5
  let (hour, r7) ← read2 r6
  let r8 ← expectChar ':' r7
  let (minute, r9) ← read2 r8
  let r10 ← expectChar ':' r9
  let (second, r11) ← read2 r10
  let fo ← parseFracOffset r11
  if 1 ≤ year ∧ 1 ≤ month ∧ month ≤ 12 ∧ 1 ≤ day ∧ day ≤ daysInMonth year month ∧
      hour ≤ 23 ∧ minute ≤ 59 ∧ second ≤ 59 then
    pure ⟨year, month, day, hour, minute, second, fracMicro fo.1, fo.2⟩
  else none

/-- The string-level `_parse_datetime` entry point. -/
def parse_datetime (s : String) : Option ParsedDatetime :=
  parseTimestamp s.data

/-- Offset component of a rendered timestamp: `Z`, or a sign (`true` for `+`)
with the four digits of `HH:MM`. -/
inductive OffsetShape where
  | zulu
  | numeric (plus : Bool) (a b c d : Nat)

/-- Shape of a syntactically valid ISO-8601-like timestamp, digit by digit:
`y1 y2 y3 y4 - mo1 mo2 - d1 d2 T h1 h2 : mi1 mi2 : s1 s2`, then an optional
fractional digit list (empty meaning the component is absent), then the
offset. -/
structure TimestampShape where
  y1 : Nat
  y2 : Nat
  y3 : Nat
  y4 : Nat
  mo1 : Nat
  mo2 : Nat
  d1 : Nat
  d2 : Nat
  h1 : Nat
  h2 : Nat
  mi1 : Nat
  mi2 : Nat
  s1 : Nat
  s2 : Nat
  frac : List Nat
  tz : OffsetShape

/-- Year value of a timestamp shape. -/
def shapeYear (t : TimestampShape) : Nat :=
  1000 * t.y1 + 100 * t.y2 + 10 * t.y3 + t.y4

/-- Month value of a timestamp shape. -/
def shapeMonth (t : TimestampShape) : Nat := 10 * t.mo1 + t.mo2

/-- Day value of a timestamp shape. -/
def shapeDay (t : TimestampShape) : Nat := 10 * t.d1 + t.d2

/-- Hour value of a timestamp shape. -/
def shapeHour (t : TimestampShape) : Nat := 10 * t.h1 + t.h2

/-- Minute value of a timestamp shape. -/
def shapeMinute (t : TimestampShape) : Nat := 10 * t.mi1 + t.mi2

/-- Second value of a timestamp shape. -/
def shapeSecond (t : TimestampShape) : Nat := 10 * t.s1 + t.s2

/-- Signed offset minutes denoted by an offset shape. -/
def shapeOffset : OffsetShape → Int
  | .zulu => 0
  | .numeric plus a b c d =>
    if plus then (((10 * a + b) * 60 + (10 * c + d) : Nat) : Int)
    else -(((10 * a + b) * 60 + (10 * c + d) : Nat) : Int)

/-- Digit bounds of an offset shape, with the hour and minute ranges a valid
offset satisfies. -/
def wfOffset : OffsetShape → Prop
  | .zulu => True
  | .numeric _ a b c d =>
    a < 10 ∧ b < 10 ∧ c < 10 ∧ d < 10 ∧ 10 * a + b < 24 ∧ 10 * c + d < 60

/-- Well-formed timestamp shape: decimal digits everywhere, at most nine
fractional digits, calendar-valid field values and a valid offset. -/
def wfShape (t : TimestampShape) : Prop :=
  t.y1 < 10 ∧ t.y2 < 10 ∧ t.y3 < 10 ∧ t.y4 < 10 ∧ t.mo1 < 10 ∧ t.mo2 < 10 ∧
    t.d1 < 10 ∧ t.d2 < 10 ∧ t.h1 < 10 ∧ t.h2 < 10 ∧ t.mi1 < 10 ∧ t.mi2 < 10 ∧
    t.s1 < 10 ∧ t.s2 < 10 ∧ (∀ d ∈ t.frac, d < 10) ∧ t.frac.length ≤ 9 ∧
    wfOffset t.tz ∧
    1 ≤ shapeYear t ∧ 1 ≤ shapeMonth t ∧ shapeMonth t ≤ 12 ∧ 1 ≤ shapeDay t ∧
    shapeDay t ≤ daysInMonth (shapeYear t) (shapeMonth t) ∧
    shapeHour t ≤ 23 ∧ shapeMinute t ≤ 59 ∧ shapeSecond t ≤ 59

/-- Characters of the offset component. -/
def renderOffset : OffsetShape → List Char
  | .zulu => ['Z']
  | .numeric plus a b c d =>
    (if plus then '+' else '-') :: dchar a :: dchar b :: ':' :: dchar c :: dchar d :: []

/-- Characters of a timestamp shape: the grammar of the syntactically valid
timestamps of spec section 4.4. -/
def renderShape (t : TimestampShape) : List Char :=
  dchar t.y1 :: dchar t.y2 :: dchar t.y3 :: dchar t.y4 :: '-' ::
  dchar t.mo1 :: dchar t.mo2 :: '-' :: dchar t.d1 :: dchar t.d2 :: 'T' ::
  dchar t.h1 :: dchar t.h2 :: ':' :: dchar t.mi1 :: dchar t.mi2 :: ':' ::
  dchar t.s1 :: dchar t.s2 ::
  ((if t.frac = [] then [] else '.' :: t.frac.map dchar) ++ renderOffset t.tz)

/-- Datetime a well-formed timestamp shape denotes: field values, microseconds
from the fraction by truncate-then-pad, offset minutes. -/
def shapeDatetime (t : TimestampShape) : ParsedDatetime :=
  ⟨shapeYear t, shapeMonth t, shapeDay t, shapeHour t, shapeMinute t,
    shapeSecond t, fracMicro t.frac, shapeOffset t.tz⟩

/-- Stopping lemma: when the first attempt fails with a non-transient error,
the retry loop stops at attempt 1 with no delays, whatever the attempt
budget. -/
theorem retryAux_fatal_first {α ε : Type} (transient : ε → Bool) (delay : Nat → ℚ)
    (op : Nat → Except ε α) (e : ε) (hop : op 1 = .error e) (hf : transient e = false) :
    ∀ (remaining : Nat) (ds : List ℚ),
      retryAux transient delay op 1 remaining ds = (.error (e, 1), 1, ds) := by
  intro remaining ds
  match remaining with
  | 0 => simp [retryAux, hop]
  | 1 => simp [retryAux, hop]
  | r + 2 => simp [retryAux, hop, hf]

/-- Closed form of the retry loop when every attempt fails with a transient
error: with `r + 1` attempts allowed starting at attempt `a`, every attempt
runs, the error of the final attempt `a + r` is raised tagged with that
attempt number, and the delays slept are those before attempts
`a + 1, …, a + r`. -/
theorem retryAux_all_transient {α ε : Type} (transient : ε → Bool) (delay : Nat → ℚ)
    (op : Nat → Except ε α) (f : Nat → ε)
    (hop : ∀ k, op k = .error (f k)) (htr : ∀ k, transient (f k) = true) :
    ∀ (r a : Nat) (ds : List ℚ),
      retryAux transient delay op a (r + 1) ds =
        (.error (f (a + r), a + r), a + r,
          ds ++ (List.range r).map (fun i => delay (a + 1 + i))) := by
  intro r
  induction r with
  | zero => intro a ds; simp [retryAux, hop a]
  | succ r ih =>
    intro a ds
    have hstep :
        retryAux transient delay op a (r + 1 + 1) ds =
          retryAux transient delay op (a + 1) (r + 1) (ds ++ [delay (a + 1)]) := by
      show retryAux transient delay op a (r + 2) ds = _
      simp [retryAux, hop a, htr a]
    rw [hstep, ih (a + 1)]
    have harith : a + 1 + r = a + (r + 1) := by omega
    rw [harith]
    have hds : (ds ++ [delay (a + 1)]) ++ (List.range r).map (fun i => delay (a + 1 + 1 + i)) =
        ds ++ (List.range (r + 1)).map (fun i => delay (a + 1 + i)) := by
      rw [List.append_assoc]
      congr 1
      rw [List.range_succ_eq_map, List.map_cons, List.map_map]
      simp only [List.singleton_append, Nat.add_zero, List.cons.injEq]
      refine ⟨trivial, List.map_congr_left ?_⟩
      intro i _
      simp only [Function.comp_apply]
      congr 1
      omega
    rw [hds]

/-- Success lemma: when the first attempt succeeds, the retry loop returns its
value after exactly one attempt with no delays, whatever the attempt budget. -/
theorem retryAux_first_ok {α ε : Type} (transient : ε → Bool) (delay : Nat → ℚ)
    (op : Nat → Except ε α) (v : α) (hop : op 1 = .ok v) :
    ∀ (remaining : Nat) (ds : List ℚ),
      retryAux transient delay op 1 remaining ds = (.ok v, 1, ds) := by
  intro remaining ds
  match remaining with
  | 0 => simp [retryAux, hop]
  | 1 => simp [retryAux, hop]
  | r + 2 => simp [retryAux, hop]

/-- C1 (amended): a response with HTTP status 403, and a response whose body
carries `blocked = true` or a non-empty `block_reason` at a non-error status
(2xx/3xx, status 200 included), classifies as a policy violation carrying the
policy name and block reason, so `execute_query` raises it on the first
attempt with nothing cached; and a body carrying the block flag is never
classified as success at any HTTP status (at 401 or another 4xx/5xx status a
different typed error is raised instead). -/
theorem execute_query_blocked_raises_policy_violation (st : Nat) (b : ResponseBody)
    (h : st = 403 ∨ (st < 400 ∧ isBlockedBody b = true)) :
    classify (.response ⟨st, b⟩) = .error (.policyViolation (policyOf b) b.block_reason)
    ∧ (∀ (rc : RetryConfig) (cc : CacheConfig) (now : ℚ) (ut q rt : String)
        (responses : Nat → TransportResult), responses 1 = .response ⟨st, b⟩ →
        execute_query rc cc now ut q rt responses [] =
          (.error (.policyViolation (policyOf b) b.block_reason, 1), [], 1, []))
    ∧ (∀ (st2 : Nat) (x : ResponseBody), isBlockedBody b = true →
        classify (.response ⟨st2, b⟩) ≠ .ok x) := by
  have hcl : classify (.response ⟨st, b⟩) =
      .error (.policyViolation (policyOf b) b.block_reason) := by
    rcases h with h | ⟨h1, h2⟩
    · subst h; simp [classify]
    · have h401 : st ≠ 401 := by omega
      simp [classify, h401, h1, h2]
  refine ⟨hcl, ?_, ?_⟩
  · intro rc cc now ut q rt responses hresp
    have hop : (fun k => classify (responses k)) 1 =
        .error (.policyViolation (policyOf b) b.block_reason) := by
      simp only [hresp, hcl]
    have hrun : run_retry rc isTransientErr (fun k => classify (responses k)) =
        (.error ((.policyViolation (policyOf b) b.block_reason), 1), 1, []) := by
      unfold run_retry
      exact retryAux_fatal_first _ _ _ _ hop rfl _ _
    rcases cc with ⟨ce, ct, cm⟩
    cases ce <;>
      simp [execute_query, get_or_compute, lookupLive, hrun]
  · intro st2 x hbl
    simp only [classify]
    split_ifs with h1 h2 h3
    · simp
    · simp
    · simp
    · exfalso
      exact h2 (Or.inr ⟨by omega, hbl⟩)

/-- Witness for C1 (amended): a 200 response whose body carries a block flag
and a block reason is classified as the policy violation. -/
theorem execute_query_blocked_raises_policy_violation_witness :
    (200 = 403 ∨ (200 < 400 ∧
      isBlockedBody { blocked := true, block_reason := some "Rate limit exceeded" } = true))
    ∧ classify (.response ⟨200, { blocked := true, block_reason := some "Rate limit exceeded" }⟩)
        = .error (.policyViolation
            (policyOf { blocked := true, block_reason := some "Rate limit exceeded" })
            (some "Rate limit exceeded")) :=
  ⟨Or.inr ⟨by omega, rfl⟩,
    (execute_query_blocked_raises_policy_violation 200
      { blocked := true, block_reason := some "Rate limit exceeded" }
      (Or.inr ⟨by omega, rfl⟩)).1⟩

/-- Counterexample to C1 as stated: a 500 response whose body carries
`blocked = true` classifies as a generic HTTP error (section 4.3 rule 4), not
as a policy violation, so "regardless of the HTTP status code" fails at
status 500. -/
theorem classify_blocked_500_is_http_error :
    classify (.response ⟨500, { blocked := true, block_reason := some "Rate limit exceeded" }⟩)
      = .error (.httpError 500)
    ∧ (Except.error (.httpError 500) : Except AxonErr ResponseBody)
      ≠ .error (.policyViolation
          (policyOf { blocked := true, block_reason := some "Rate limit exceeded" })
          (some "Rate limit exceeded")) :=
  ⟨rfl, by simp⟩

/-- C7: a 401 response makes `execute_query` raise the authentication error
immediately: exactly one HTTP attempt, no backoff delays and nothing cached,
even with retries enabled and `max_attempts` greater than 1. -/
theorem execute_query_401_not_retried (rc : RetryConfig) (cc : CacheConfig)
    (now : ℚ) (ut q rt : String) (responses : Nat → TransportResult) (b : ResponseBody)
    (hen : rc.enabled = true) (hma : 1 < rc.max_attempts)
    (hresp : responses 1 = .response ⟨401, b⟩) :
    execute_query rc cc now ut q rt responses [] =
      (.error (.authenticationError, 1), [], 1, []) := by
  have hop : (fun k => classify (responses k)) 1 = .error .authenticationError := by
    simp only [hresp]; rfl
  have hrun : run_retry rc isTransientErr (fun k => classify (responses k)) =
      (.error (.authenticationError, 1), 1, []) := by
    unfold run_retry
    exact retryAux_fatal_first _ _ _ _ hop rfl _ _
  rcases cc with ⟨ce, ct, cm⟩
  cases ce <;>
    simp [execute_query, get_or_compute, lookupLive, hrun]

/-- Witness for C7: a concrete 401 response with three allowed attempts stops
at the first attempt with an authentication error. -/
theorem execute_query_401_not_retried_witness :
    ({ enabled := true, max_attempts := 3 } : RetryConfig).enabled = true
    ∧ 1 < ({ enabled := true, max_attempts := 3 } : RetryConfig).max_attempts
    ∧ execute_query { enabled := true, max_attempts := 3 } {} 0 "u" "q" "chat"
        (fun _ => .response ⟨401, {}⟩) [] =
      (.error (.authenticationError, 1), [], 1, []) :=
  ⟨rfl, by decide,
    execute_query_401_not_retried { enabled := true, max_attempts := 3 } {} 0 "u" "q" "chat"
      (fun _ => .response ⟨401, {}⟩) {} rfl (by decide) rfl⟩

/-- C2: when the governance decision is a block (a 200 response with the block
flag set), the intercepted call raises the policy violation carrying the block
reason and the real provider method is invoked zero times. -/
theorem interceptor_blocked_never_invokes_provider {α β : Type}
    (b : ResponseBody) (provider : α → β) (args : α) (hbl : isBlockedBody b = true) :
    interceptCall (.response ⟨200, b⟩) provider args =
      (.error (.policyViolation (policyOf b) b.block_reason), 0) := by
  simp [interceptCall, classify, hbl]

/-- Witness for C2: a blocked governance response leaves a concrete provider
uninvoked and surfaces the block reason. -/
theorem interceptor_blocked_never_invokes_provider_witness :
    isBlockedBody { blocked := true, block_reason := some "Sensitive content detected" } = true
    ∧ interceptCall
        (.response ⟨200, { blocked := true, block_reason := some "Sensitive content detected" }⟩)
        (fun n : Nat => n + 1) 5 =
      (.error (.policyViolation none (some "Sensitive content detected")), 0) :=
  ⟨rfl,
    interceptor_blocked_never_invokes_provider
      { blocked := true, block_reason := some "Sensitive content detected" }
      (fun n : Nat => n + 1) 5 rfl⟩

/-- C3: when the governance decision approves (a 200 response with no block
flag), the intercepted call invokes the real provider method exactly once with
the original arguments unchanged and returns its result unmodified. -/
theorem interceptor_approved_forwards_unchanged {α β : Type}
    (b : ResponseBody) (provider : α → β) (args : α) (hbl : isBlockedBody b = false) :
    interceptCall (.response ⟨200, b⟩) provider args = (.ok (provider args), 1) := by
  simp [interceptCall, classify, hbl]

/-- Witness for C3: an approved governance response forwards a concrete call
to the provider and returns its exact result. -/
theorem interceptor_approved_forwards_unchanged_witness :
    isBlockedBody {} = false
    ∧ interceptCall (.response ⟨200, {}⟩) (fun n : Nat => n + 1) 41 = (.ok 42, 1) :=
  ⟨rfl, interceptor_approved_forwards_unchanged {} (fun n : Nat => n + 1) 41 rfl⟩

/-- C5: with retries enabled, an operation that fails transiently on every
attempt is attempted exactly `max_attempts` times, with no delay before the
first attempt and the backoff delay `delayBefore` (that is,
`min(max_delay, initial_delay * exponential_base ^ (k - 2))`) slept before
each attempt `k ≥ 2`; the error of the final attempt is raised tagged with
the number of attempts made. -/
theorem retry_exhausts_attempts_with_backoff {α ε : Type} (cfg : RetryConfig)
    (transient : ε → Bool) (op : Nat → Except ε α) (f : Nat → ε)
    (hen : cfg.enabled = true) (h1 : 1 ≤ cfg.max_attempts) (h10 : cfg.max_attempts ≤ 10)
    (hid : 0 < cfg.initial_delay) (hmd : 0 < cfg.max_delay) (hb : 1 < cfg.exponential_base)
    (hop : ∀ k, op k = .error (f k)) (htr : ∀ k, transient (f k) = true) :
    run_retry cfg transient op =
      (.error (f cfg.max_attempts, cfg.max_attempts), cfg.max_attempts,
        (List.range (cfg.max_attempts - 1)).map (fun i => delayBefore cfg (2 + i))) := by
  obtain ⟨r, hr⟩ : ∃ r, cfg.max_attempts = r + 1 := ⟨cfg.max_attempts - 1, by omega⟩
  unfold run_retry
  rw [hen, if_pos rfl, hr]
  rw [retryAux_all_transient transient (delayBefore cfg) op f hop htr r 1 []]
  have h1r : 1 + r = r + 1 := by omega
  rw [h1r]
  simp only [List.nil_append, Nat.add_sub_cancel]

/-- Witness for C5: three allowed attempts against an always-failing transient
operation make exactly three attempts with delays before attempts 2 and 3. -/
theorem retry_exhausts_attempts_with_backoff_witness :
    ({} : RetryConfig).enabled = true
    ∧ run_retry ({} : RetryConfig) (fun _ : Nat => true)
        (fun k => (.error k : Except Nat Nat)) =
      (.error (3, 3), 3, (List.range 2).map (fun i => delayBefore {} (2 + i))) :=
  ⟨rfl,
    retry_exhausts_attempts_with_backoff {} (fun _ : Nat => true)
      (fun k => (.error k : Except Nat Nat)) (fun k => k)
      rfl (by decide) (by decide) (by norm_num) (by norm_num) (by norm_num)
      (fun k => rfl) (fun k => rfl)⟩

/-- C4: two `execute_query` calls with the identical
`(user_token, query, request_type)` triplet within the TTL, each of whose
first HTTP attempt classifies as success: with caching enabled the first call
makes the single HTTP request and stores the entry, the second call makes
zero HTTP requests and returns the identical cached payload; with caching
disabled each call makes its own HTTP request and the cache is neither read
(the second call returns its own fresh result whatever the cache holds) nor
written (the state is unchanged). -/
theorem execute_query_cache_dedup (rc : RetryConfig) (cc : CacheConfig)
    (ut q rt : String) (t1 t2 : ℚ) (responses1 responses2 : Nat → TransportResult)
    (v1 v2 : ResponseBody)
    (h1 : classify (responses1 1) = .ok v1) (h2 : classify (responses2 1) = .ok v2)
    (ht : t1 ≤ t2) (httl : t2 - t1 < cc.ttl) (hsz : 0 < cc.max_size) :
    (cc.enabled = true →
      execute_query rc cc t1 ut q rt responses1 [] =
        (.ok v1, [⟨fingerprint ut q rt, v1, t1⟩], 1, [])
      ∧ execute_query rc cc t2 ut q rt responses2 [⟨fingerprint ut q rt, v1, t1⟩] =
        (.ok v1, [⟨fingerprint ut q rt, v1, t1⟩], 0, []))
    ∧ (cc.enabled = false →
      ∀ es : CacheState ResponseBody,
        execute_query rc cc t1 ut q rt responses1 es = (.ok v1, es, 1, [])
        ∧ execute_query rc cc t2 ut q rt responses2 es = (.ok v2, es, 1, [])) := by
  have hop1 : (fun k => classify (responses1 k)) 1 = .ok v1 := h1
  have hop2 : (fun k => classify (responses2 k)) 1 = .ok v2 := h2
  have hrun1 : run_retry rc isTransientErr (fun k => classify (responses1 k)) =
      (.ok v1, 1, []) := by
    unfold run_retry
    exact retryAux_first_ok _ _ _ _ hop1 _ _
  have hrun2 : run_retry rc isTransientErr (fun k => classify (responses2 k)) =
      (.ok v2, 1, []) := by
    unfold run_retry
    exact retryAux_first_ok _ _ _ _ hop2 _ _
  constructor
  · intro hcen
    constructor
    · have hmax : ¬ (cc.max_size ≤ 0) := by omega
      simp [execute_query, get_or_compute, lookupLive, insertEntry, hrun1, hcen, hmax]
    · simp [execute_query, get_or_compute, lookupLive, hrun2, hcen, httl]
  · intro hcdis es
    constructor
    · simp [execute_query, get_or_compute, hrun1, hcdis]
    · simp [execute_query, get_or_compute, hrun2, hcdis]

/-- Witness for C4: a concrete pair of identical calls 30 seconds apart with a
60-second TTL makes one HTTP request and returns the cached body twice. -/
theorem execute_query_cache_dedup_witness :
    classify ((fun _ : Nat => TransportResult.response ⟨200, {}⟩) 1) = .ok {}
    ∧ (({} : CacheConfig) : CacheConfig).enabled = true
    ∧ execute_query {} ({} : CacheConfig) 0 "u" "q" "chat"
        (fun _ => .response ⟨200, {}⟩) [] =
      (.ok {}, [⟨fingerprint "u" "q" "chat", {}, 0⟩], 1, [])
    ∧ execute_query {} ({} : CacheConfig) 30 "u" "q" "chat"
        (fun _ => .response ⟨200, {}⟩) [⟨fingerprint "u" "q" "chat", {}, 0⟩] =
      (.ok {}, [⟨fingerprint "u" "q" "chat", {}, 0⟩], 0, []) := by
  have h := execute_query_cache_dedup {} ({} : CacheConfig)
    "u" "q" "chat" 0 30 (fun _ => .response ⟨200, {}⟩) (fun _ => .response ⟨200, {}⟩)
    {} {} rfl rfl (by norm_num) (by norm_num) (by decide)
  exact ⟨rfl, rfl, (h.1 rfl).1, (h.1 rfl).2⟩

/-- C8: every provider adapter's `extract_prompt` is a total function (in this
embedding all definitions are total, so it can never raise), and on arguments
with no extractable text — an empty message list, a missing body, no
arguments, or only non-text content blocks — it returns the empty string. -/
theorem extract_prompt_total_empty_on_no_text :
    openai_extract_prompt [] = ""
    ∧ anthropic_extract_prompt [] = ""
    ∧ anthropic_extract_prompt [⟨"user", .blocks [.nonText "image"]⟩] = ""
    ∧ gemini_extract_prompt none = ""
    ∧ ollama_extract_prompt none none = ""
    ∧ bedrock_extract_prompt none = ""
    ∧ bedrock_extract_prompt (some {}) = "" :=
  ⟨rfl, rfl, rfl, rfl, rfl, rfl, rfl⟩

/-- Bound preservation: one cache interaction never pushes the entry count
above `max_size` (for a positive `max_size`). -/
theorem cache_step_length_le {α : Type} (cfg : CacheConfig) (h : 0 < cfg.max_size)
    (es : CacheState α) (op : ℚ × String × α) (hle : es.length ≤ cfg.max_size) :
    (cache_step cfg es op).length ≤ cfg.max_size := by
  rcases cfg with ⟨ce, ct, cm⟩
  cases ce
  · simpa [cache_step, get_or_compute] using hle
  · cases hl : lookupLive ⟨true, ct, cm⟩ op.1 op.2.1 es with
    | some v => simpa [cache_step, get_or_compute, hl] using hle
    | none =>
      simp only [cache_step, get_or_compute] at *
      simp only [Bool.true_eq_false, if_false, hl]
      have hfl : (es.filter (fun e => e.key != op.2.1)).length ≤ es.length :=
        List.length_filter_le _ _
      simp only [insertEntry]
      by_cases hge : cm ≤ (es.filter (fun e => e.key != op.2.1)).length
      · have h1 : 1 ≤ (es.filter (fun e => e.key != op.2.1)).length := by omega
        simp only [if_pos hge, List.length_append, List.length_tail, List.length_cons,
          List.length_nil]
        omega
      · simp only [if_neg hge, List.length_append, List.length_cons, List.length_nil]
        omega

/-- C9: over every sequence of cache interactions the entry count never
exceeds `max_size`; and when an insertion lands on a full cache (a miss with a
fresh key), exactly the single oldest-inserted entry (the head of the
insertion-ordered state) is evicted before the new entry is appended. -/
theorem cache_bounded_and_evicts_oldest {α : Type} (cfg : CacheConfig)
    (h : 0 < cfg.max_size) :
    (∀ (ops : List (ℚ × String × α)) (es : CacheState α),
      es.length ≤ cfg.max_size →
      (ops.foldl (cache_step cfg) es).length ≤ cfg.max_size)
    ∧ (∀ (es : CacheState α) (now : ℚ) (k : String) (v : α),
        cfg.enabled = true → es.length = cfg.max_size →
        lookupLive cfg now k es = none →
        es.filter (fun e => e.key != k) = es →
        cache_step cfg es (now, k, v) = es.tail ++ [⟨k, v, now⟩]) := by
  constructor
  · intro ops
    induction ops with
    | nil => intro es hle; simpa using hle
    | cons op ops ih =>
      intro es hle
      exact ih (cache_step cfg es op) (cache_step_length_le cfg h es op hle)
  · intro es now k v hen hlen hmiss hfresh
    unfold cache_step get_or_compute
    simp only [hen]
    simp only [show (true = false) = False by simp, if_false]
    simp only [hmiss]
    simp only [insertEntry, hfresh, hlen, le_refl, if_pos]

/-- Witness for C9: a full two-entry cache evicts its oldest entry on a fresh
insertion, and a three-step interaction sequence stays within the bound. -/
theorem cache_bounded_and_evicts_oldest_witness :
    0 < (({ max_size := 2 } : CacheConfig)).max_size
    ∧ cache_step ({ max_size := 2 } : CacheConfig)
        [⟨"a", (0 : Nat), 0⟩, ⟨"b", 1, 10⟩] (100, "c", 2) =
      [⟨"b", 1, 10⟩, ⟨"c", 2, 100⟩]
    ∧ ([((0 : ℚ), "a", (0 : Nat)), (1, "b", 1), (2, "c", 2)].foldl
        (cache_step ({ max_size := 2 } : CacheConfig)) []).length ≤
      ({ max_size := 2 } : CacheConfig).max_size := by
  have h := cache_bounded_and_evicts_oldest (α := Nat) ({ max_size := 2 } : CacheConfig)
    (by decide)
  refine ⟨by decide, ?_, ?_⟩
  · exact h.2 [⟨"a", (0 : Nat), 0⟩, ⟨"b", 1, 10⟩] 100 "c" 2 rfl rfl rfl rfl
  · exact h.1 [((0 : ℚ), "a", (0 : Nat)), (1, "b", 1), (2, "c", 2)] [] (by decide)

/-- C10: `health_check` is a total Boolean (it never raises); it returns
`True` exactly when the request completed on a success status with body
status `healthy`, and `False` both on transport or HTTP failure (for example
status 500) and on any non-healthy body status. -/
theorem health_check_total_and_exact :
    (∀ r : Except String HealthResponse,
      health_check r = true ↔
        ∃ h : HealthResponse, r = .ok h ∧ 200 ≤ h.status ∧ h.status < 300 ∧
          h.body_status = "healthy")
    ∧ health_check (.ok ⟨500, "healthy"⟩) = false
    ∧ health_check (.ok ⟨200, "unhealthy"⟩) = false
    ∧ health_check (.error "connection refused") = false
    ∧ health_check (.ok ⟨200, "healthy"⟩) = true := by
  refine ⟨?_, by decide, ?_, rfl, ?_⟩
  · intro r
    constructor
    · intro htrue
      cases r with
      | error msg => simp [health_check] at htrue
      | ok hr =>
        simp only [health_check] at htrue
        by_cases hcond : 200 ≤ hr.status ∧ hr.status < 300
        · rw [if_pos hcond] at htrue
          exact ⟨hr, rfl, hcond.1, hcond.2, by simpa using htrue⟩
        · rw [if_neg hcond] at htrue
          exact absurd htrue (by simp)
    · rintro ⟨h2, rfl, hs1, hs2, hb⟩
      simp [health_check, hs1, hs2, hb]
  · simp [health_check]
  · simp [health_check]

/-- Witness for C10: a healthy 200 response satisfies the success
characterization. -/
theorem health_check_total_and_exact_witness :
    health_check (.ok ⟨200, "healthy"⟩) = true ↔
      ∃ h : HealthResponse, (.ok ⟨200, "healthy"⟩ : Except String HealthResponse) = .ok h ∧
        200 ≤ h.status ∧ h.status < 300 ∧ h.body_status = "healthy" :=
  health_check_total_and_exact.1 (.ok ⟨200, "healthy"⟩)

/-- Digit characters read back to their digit value. -/
theorem readDigit_dchar {d : Nat} (h : d < 10) : readDigit (dchar d) = some d := by
  interval_cases d <;> decide

/-- Two rendered digits read back as their two-digit value. -/
theorem read2_dchar {a b : Nat} (ha : a < 10) (hb : b < 10) (rest : List Char) :
    read2 (dchar a :: dchar b :: rest) = some (10 * a + b, rest) := by
  simp [read2, readDigit_dchar ha, readDigit_dchar hb]

/-- Four rendered digits read back as their four-digit value. -/
theorem read4_dchar {a b c d : Nat} (ha : a < 10) (hb : b < 10) (hc : c < 10)
    (hd : d < 10) (rest : List Char) :
    read4 (dchar a :: dchar b :: dchar c :: dchar d :: rest) =
      some (1000 * a + 100 * b + 10 * c + d, rest) := by
  simp [read4, readDigit_dchar ha, readDigit_dchar hb, readDigit_dchar hc,
    readDigit_dchar hd]

/-- An expected separator at the head is consumed. -/
theorem expectChar_cons (c : Char) (rest : List Char) :
    expectChar c (c :: rest) = some rest := by
  simp [expectChar]

/-- A rendered digit run followed by a non-digit reads back exactly. -/
theorem readDigits_dchar_append {ds : List Nat} (h : ∀ d ∈ ds, d < 10) {c : Char}
    (hc : readDigit c = none) (rest : List Char) :
    readDigits (ds.map dchar ++ c :: rest) = (ds, c :: rest) := by
  induction ds with
  | nil => simp [readDigits, hc]
  | cons d ds ih =>
    have hd : d < 10 := h d (by simp)
    have h2 : ∀ x ∈ ds, x < 10 := fun x hx => h x (by simp [hx])
    simp [readDigits, readDigit_dchar hd, ih h2]

/-- A rendered offset parses back to its signed minute value. -/
theorem parseOffset_render {tz : OffsetShape} (h : wfOffset tz) :
    parseOffset (renderOffset tz) = some (shapeOffset tz) := by
  match tz with
  | .zulu => rfl
  | .numeric plus a b c d =>
    obtain ⟨ha, hb, hc, hd, hh, hm⟩ := h
    cases plus <;>
      simp [renderOffset, parseOffset, readDigit_dchar ha, readDigit_dchar hb,
        readDigit_dchar hc, readDigit_dchar hd, shapeOffset, hh, hm]

/-- A rendered fraction-plus-offset tail parses back to the fractional digits
and the offset value. -/
theorem parseFracOffset_render {frac : List Nat} (hf : ∀ d ∈ frac, d < 10)
    {tz : OffsetShape} (htz : wfOffset tz) :
    parseFracOffset ((if frac = [] then [] else '.' :: frac.map dchar) ++ renderOffset tz) =
      some (frac, shapeOffset tz) := by
  obtain ⟨c, rest, hrend, hcd, hcdot⟩ :
      ∃ c rest, renderOffset tz = c :: rest ∧ readDigit c = none ∧ c ≠ '.' := by
    match tz with
    | .zulu => exact ⟨'Z', [], rfl, by decide, by decide⟩
    | .numeric plus a b c d =>
      cases plus
      · exact ⟨'-', _, rfl, by decide, by decide⟩
      · exact ⟨'+', _, rfl, by decide, by decide⟩
  have hpo : parseOffset (c :: rest) = some (shapeOffset tz) := by
    rw [← hrend]; exact parseOffset_render htz
  match frac with
  | [] =>
    rw [if_pos rfl, List.nil_append, hrend]
    simp [parseFracOffset, hcdot, hpo]
  | f :: fs =>
    have hne : (f :: fs : List Nat) ≠ [] := by simp
    rw [if_neg hne, List.cons_append, hrend]
    have hrd := readDigits_dchar_append hf hcd rest
    simp only [List.map_cons, List.cons_append] at hrd
    simp [parseFracOffset, hrd, hpo]

/-- C6: the timestamp normalizer parses every syntactically valid timestamp of
the grammar — calendar-valid fields, 0 to 9 fractional digits, a trailing `Z`
or a numeric offset — successfully and exactly: the microsecond value comes
from the fractional digits by truncation to the first six digits (never
rounding) and right zero-padding, an absent fraction gives zero microseconds,
and `Z` parses as UTC offset zero. Concrete conjuncts pin the behaviour on
the test inputs (exactness at 0, 3 and 6 digits, truncation at 7 and 9). -/
theorem parse_datetime_total_and_truncating :
    (∀ t : TimestampShape, wfShape t →
      parseTimestamp (renderShape t) = some (shapeDatetime t))
    ∧ parse_datetime "2024-12-15T10:30:00.123456789Z" =
        some ⟨2024, 12, 15, 10, 30, 0, 123456, 0⟩
    ∧ parse_datetime "2024-12-15T10:30:00.1Z" = some ⟨2024, 12, 15, 10, 30, 0, 100000, 0⟩
    ∧ parse_datetime "2024-12-15T10:30:00.123Z" = some ⟨2024, 12, 15, 10, 30, 0, 123000, 0⟩
    ∧ parse_datetime "2024-12-15T10:30:00.123456Z" =
        some ⟨2024, 12, 15, 10, 30, 0, 123456, 0⟩
    ∧ parse_datetime "2024-12-15T10:30:00.1234567Z" =
        some ⟨2024, 12, 15, 10, 30, 0, 123456, 0⟩
    ∧ parse_datetime "2024-12-15T10:30:00Z" = some ⟨2024, 12, 15, 10, 30, 0, 0, 0⟩
    ∧ parse_datetime "2024-12-15T10:30:00+00:00" = some ⟨2024, 12, 15, 10, 30, 0, 0, 0⟩ := by
  refine ⟨?_, by decide, by decide, by decide, by decide, by decide, by decide, by decide⟩
  rintro ⟨y1, y2, y3, y4, mo1, mo2, d1, d2, h1, h2, mi1, mi2, s1, s2, frac, tz⟩
    ⟨hy1, hy2, hy3, hy4, hmo1, hmo2, hd1, hd2, hh1, hh2, hmi1, hmi2, hs1, hs2,
      hfr, hlen, htz, hc1, hc2, hc3, hc4, hc5, hc6, hc7, hc8⟩
  simp only [shapeYear, shapeMonth, shapeDay, shapeHour, shapeMinute, shapeSecond]
    at hc1 hc2 hc3 hc4 hc5 hc6 hc7 hc8
  simp only [renderShape, parseTimestamp, read4_dchar hy1 hy2 hy3 hy4,
    read2_dchar hmo1 hmo2, read2_dchar hd1 hd2, read2_dchar hh1 hh2,
    read2_dchar hmi1 hmi2, read2_dchar hs1 hs2, expectChar_cons,
    parseFracOffset_render hfr htz, Option.bind_eq_bind, Option.some_bind]
  rw [if_pos ⟨hc1, hc2, hc3, hc4, hc5, hc6, hc7, hc8⟩]
  simp [shapeDatetime, shapeYear, shapeMonth, shapeDay, shapeHour, shapeMinute,
    shapeSecond]

/-- Witness for C6: a concrete well-formed shape with nine fractional digits
parses to its denoted datetime, microseconds truncated to the first six
digits. -/
theorem parse_datetime_total_and_truncating_witness :
    wfShape ⟨2, 0, 2, 4, 1, 2, 1, 5, 1, 0, 3, 0, 0, 0, [1, 2, 3, 4, 5, 6, 7, 8, 9], .zulu⟩
    ∧ parseTimestamp (renderShape
        ⟨2, 0, 2, 4, 1, 2, 1, 5, 1, 0, 3, 0, 0, 0, [1, 2, 3, 4, 5, 6, 7, 8, 9], .zulu⟩) =
      some (shapeDatetime
        ⟨2, 0, 2, 4, 1, 2, 1, 5, 1, 0, 3, 0, 0, 0, [1, 2, 3, 4, 5, 6, 7, 8, 9], .zulu⟩) := by
  have hwf : wfShape
      ⟨2, 0, 2, 4, 1, 2, 1, 5, 1, 0, 3, 0, 0, 0, [1, 2, 3, 4, 5, 6, 7, 8, 9], .zulu⟩ := by
    simp only [wfShape, wfOffset, shapeYear, shapeMonth, shapeDay, shapeHour,
      shapeMinute, shapeSecond]
    decide
  exact ⟨hwf, parse_datetime_total_and_truncating.1 _ hwf⟩
